import Mathlib

/-!
Verification development for the hotkey-synchronized audio-capture engine
of the ZerolanLiveRobot repository: the SmartMicrophone capture loop with
its VAD segmentation state machine (src/devices/microphone.py) and the
SmartKeyboard hotkey listener (src/devices/keyboard.py).

Frames and byte buffers are modelled as lists of natural numbers (byte
values); the mutable fields of SmartMicrophone become an explicit state
record, and each method becomes a pure function from state to state plus
the list of events it emits.
-/

/-- One audio frame: the raw PCM bytes returned by a single stream read. -/
abbrev Frame := List Nat

/-- The DeviceMicrophoneVADEvent payload emitted by SmartMicrophone:
WAV-encoded bytes plus channel and sample-rate metadata. -/
structure VADEvent where
  speech : List Nat
  channels : Nat
  sampleRate : Nat
deriving DecidableEq

/-- Mutable fields of SmartMicrophone that the capture logic touches:
the enable_vad configuration flag, the audio_frames buffer, the
is_speaking flag, the talk_enabled event and the stop flag. -/
structure MicState where
  enableVad : Bool
  audioFrames : List Frame
  isSpeaking : Bool
  talkEnabled : Bool
  stopFlag : Bool
deriving DecidableEq

/-- State of a freshly constructed SmartMicrophone: empty buffer, not
speaking, talk_enabled cleared, stop flag false. -/
def initMic (enableVad : Bool) : MicState :=
  { enableVad := enableVad, audioFrames := [], isSpeaking := false,
    talkEnabled := false, stopFlag := false }

/-- Little-endian 16-bit encoding used by the wave module header. -/
def u16le (n : Nat) : List Nat :=
  [n % 256, n / 256 % 256]

/-- Little-endian 32-bit encoding used by the wave module header. -/
def u32le (n : Nat) : List Nat :=
  [n % 256, n / 256 % 256, n / 65536 % 256, n / 16777216 % 256]

/-- The 44-byte WAV header the wave module writes for the engine: RIFF
magic, riff size, WAVE magic, fmt chunk of size 16 holding PCM format 1,
1 channel, 16000 Hz, byte rate, block align, 16 bits per sample, then
the data chunk magic and the data length. Byte values 82,73,70,70 spell
RIFF; 87,65,86,69 spell WAVE; 102,109,116,32 spell fmt with a space;
100,97,116,97 spell data. -/
def wavHeader (datalen : Nat) : List Nat :=
  [82, 73, 70, 70] ++ u32le (36 + datalen) ++ [87, 65, 86, 69] ++
  [102, 109, 116, 32] ++ u32le 16 ++ u16le 1 ++ u16le 1 ++
  u32le 16000 ++ u32le (1 * 16000 * 2) ++ u16le (1 * 2) ++ u16le 16 ++
  [100, 97, 116, 97] ++ u32le datalen

/-- WAV encoding of a frame list as performed inside emit_event: the
header followed by the concatenation of the frames. -/
def wavEncode (frames : List Frame) : List Nat :=
  wavHeader frames.flatten.length ++ frames.flatten

/-- The emit_event method: if the audio_frames buffer is non-empty, emit
one event carrying the WAV encoding of the buffered frames together with
the channel count 1 and sample rate 16000; otherwise emit nothing. -/
def emit_event (frames : List Frame) : List VADEvent :=
  if frames.isEmpty then []
  else [{ speech := wavEncode frames, channels := 1, sampleRate := 16000 }]

/-- The vad_record method, one frame at a time. The isSpeech argument is
the verdict of the external webrtcvad classifier on this frame. With VAD
enabled: a speech frame sets the speaking flag and is appended; a silence
frame while speaking clears the flag, emits the buffered segment and
clears the buffer; a silence frame while idle is discarded. With VAD
disabled every frame sets the speaking flag and is appended. -/
def vad_record (st : MicState) (isSpeech : Bool) (f : Frame) :
    MicState × List VADEvent :=
  if st.enableVad then
    if isSpeech then
      ({ st with isSpeaking := true, audioFrames := st.audioFrames ++ [f] }, [])
    else
      if st.isSpeaking then
        ({ st with isSpeaking := false, audioFrames := [] },
         emit_event st.audioFrames)
      else (st, [])
  else
    ({ st with isSpeaking := true, audioFrames := st.audioFrames ++ [f] }, [])

/-- The force_commit method: when speaking with a non-empty buffer and
is_emit is set, emit the buffered segment; in every case the post state
has the speaking flag cleared and the buffer empty. -/
def force_commit (st : MicState) (is_emit : Bool) :
    MicState × List VADEvent :=
  if st.isSpeaking && !st.audioFrames.isEmpty && is_emit then
    ({ st with isSpeaking := false, audioFrames := [] },
     emit_event st.audioFrames)
  else
    ({ st with isSpeaking := false, audioFrames := [] }, [])

/-- Process a scripted list of classified frames through vad_record,
collecting the emitted events in order. -/
def runFrames : MicState → List (Bool × Frame) → MicState × List VADEvent
  | st, [] => (st, [])
  | st, (c, f) :: rest =>
    let p := vad_record st c f
    let q := runFrames p.1 rest
    (q.1, p.2 ++ q.2)

/-- The pause method: clear the talk_enabled event; nothing else changes
and nothing is emitted. -/
def pauseMic (st : MicState) : MicState × List VADEvent :=
  ({ st with talkEnabled := false }, [])

/-- The resume method: set the talk_enabled event; nothing else changes
and nothing is emitted. -/
def resumeMic (st : MicState) : MicState × List VADEvent :=
  ({ st with talkEnabled := true }, [])

/-- The stop method: set the stop flag and then set the talk_enabled
event so that a loop blocked waiting on it wakes up. -/
def stopMic (st : MicState) : MicState :=
  { st with stopFlag := true, talkEnabled := true }

/-- Program points of the capture loop body in start: the while guard,
the blocking wait on talk_enabled, the stop-flag check after the wait,
the blocking stream read, and loop exit. -/
inductive LoopPoint
  | whileCheck
  | waiting
  | postWait
  | reading
  | done
deriving DecidableEq

/-- One control-flow step of the capture loop under a fixed flag state:
the while guard exits when the stop flag is set; the wait blocks until
talk_enabled is set; the post-wait check breaks on the stop flag and
otherwise proceeds to the blocking read, after which the loop returns to
the while guard. -/
def loopNext (st : MicState) : LoopPoint → LoopPoint
  | .whileCheck => if st.stopFlag then .done else .waiting
  | .waiting => if st.talkEnabled then .postWait else .waiting
  | .postWait => if st.stopFlag then .done else .reading
  | .reading => .whileCheck
  | .done => .done

/-- Outcome of one blocking stream read: a frame together with the
classifier verdict it will receive, or an exception raised by the read
or by the classification of the frame. -/
inductive ReadOutcome
  | ok (isSpeech : Bool) (frame : Frame)
  | err
deriving DecidableEq

/-- Result of running the capture loop to completion: the final state,
the events emitted, and whether the finally block stopped and closed the
device. -/
structure LoopResult where
  state : MicState
  events : List VADEvent
  deviceClosed : Bool
deriving DecidableEq

/-- The capture loop of start, driven by a script of read outcomes, in
the regime where talk_enabled stays set. Each iteration first checks the
stop flag; a successful read is fed to vad_record under the recording
lock; an exception escapes the while loop into the top-level handler,
which logs it, after which the finally block stops and closes the
device. The finally block runs on every exit path. -/
def capture_loop : MicState → List ReadOutcome → LoopResult
  | st, [] => { state := st, events := [], deviceClosed := true }
  | st, o :: rest =>
    if st.stopFlag then { state := st, events := [], deviceClosed := true }
    else
      match o with
      | .err => { state := st, events := [], deviceClosed := true }
      | .ok c f =>
        let p := vad_record st c f
        let r := capture_loop p.1 rest
        { state := r.state, events := p.2 ++ r.events,
          deviceClosed := r.deviceClosed }

/-- The classified frames of the longest error-free initial segment of a
read script. -/
def errFreeFrames : List ReadOutcome → List (Bool × Frame)
  | [] => []
  | .err :: _ => []
  | .ok c f :: rest => (c, f) :: errFreeFrames rest

/-- One externally induced step on the engine state: a captured frame
processed by vad_record, or a force_commit call. -/
inductive MicStep
  | frame (isSpeech : Bool) (f : Frame)
  | commit (is_emit : Bool)

/-- Run a list of steps, returning the final engine state. -/
def runSteps : MicState → List MicStep → MicState
  | st, [] => st
  | st, .frame c f :: rest => runSteps (vad_record st c f).1 rest
  | st, .commit e :: rest => runSteps (force_commit st e).1 rest

/-- A resolved physical key: a named member of the pynput Key enum, or a
KeyCode built from a single character. -/
inductive PKey
  | named (s : String)
  | charKey (c : Char)
deriving DecidableEq

/-- Member names of the pynput keyboard Key enum, which str_to_Key
consults. Modelled from the external pynput library. -/
def keyMembers : List String :=
  ["alt", "alt_l", "alt_r", "alt_gr", "backspace", "caps_lock",
   "cmd", "cmd_l", "cmd_r", "ctrl", "ctrl_l", "ctrl_r", "delete",
   "down", "end", "enter", "esc", "f1", "f2", "f3", "f4", "f5", "f6",
   "f7", "f8", "f9", "f10", "f11", "f12", "f13", "f14", "f15", "f16",
   "f17", "f18", "f19", "f20", "home", "insert", "left", "media_next",
   "media_play_pause", "media_previous", "media_volume_down",
   "media_volume_mute", "media_volume_up", "menu", "num_lock",
   "page_down", "page_up", "pause", "print_screen", "right",
   "scroll_lock", "shift", "shift_l", "shift_r", "space", "tab", "up"]

/-- The strip method of Python str: drop whitespace from both ends. -/
def pyStrip (cs : List Char) : List Char :=
  ((cs.dropWhile Char.isWhitespace).reverse.dropWhile Char.isWhitespace).reverse

/-- The lower method of Python str on the ASCII hotkey strings in use. -/
def pyLower (cs : List Char) : List Char := cs.map Char.toLower

/-- The str_to_Key static method: strip the string, reject it when empty
after stripping, map a lowered Key member name to that named key, map
any other single-character string to a KeyCode of that character, and
reject everything else. -/
def str_to_Key (s : String) : Except String PKey :=
  let t := pyStrip s.toList
  if t = [] then .error "hotkey string is empty"
  else
    let name := String.mk (pyLower t)
    if name ∈ keyMembers then .ok (.named name)
    else
      match t with
      | [c] => .ok (.charKey c)
      | _ => .error "Unknown key"

/-- A Python value passed in the hotkeys list: a string or a value of
some other type. -/
inductive PyVal
  | str (s : String)
  | nonStr
deriving DecidableEq

/-- Python equality between a str and an already resolved Key or KeyCode
object: always False, since a string never compares equal to a Key enum
member or a KeyCode. This is the comparison the duplicate check of the
SmartKeyboard constructor performs when it asks whether the raw string
is a member of the set of resolved keys. -/
def pyStrEqKey (_s : String) (_k : PKey) : Bool := false

/-- The loop body of the SmartKeyboard constructor: assert each entry is
a string, test the raw string for membership in the set of keys resolved
so far (Python set membership, which compares the string against Key and
KeyCode objects), then resolve it and add the result to the set. Set
insertion keeps one copy of an already present key. -/
def keyboardInitLoop (acc : List PKey) : List PyVal → Except String (List PKey)
  | [] => .ok acc
  | .nonStr :: _ => .error "hotkeys must be string type"
  | .str s :: rest =>
    if acc.any (pyStrEqKey s) then
      .error "some hotkeys are set to be the same"
    else
      match str_to_Key s with
      | .error e => .error e
      | .ok k => keyboardInitLoop (if k ∈ acc then acc else acc ++ [k]) rest

/-- The SmartKeyboard constructor restricted to hotkey resolution: fold
the constructor loop over the supplied hotkeys list starting from the
empty set. -/
def keyboardInit (hotkeys : List PyVal) : Except String (List PKey) :=
  keyboardInitLoop [] hotkeys

/-- Mutable listener fields of SmartKeyboard: the resolved hotkey set,
the currently held hotkey and the debounce flag. -/
structure KbState where
  hotkeys : List PKey
  currentHotkey : Option PKey
  toggleDebounce : Bool
deriving DecidableEq

/-- The Key_to_str static method: a named key reports its member name, a
character KeyCode reports its character. -/
def Key_to_str : PKey → String
  | .named s => s
  | .charKey c => c.toString

/-- The on_key_press callback: ignore keys outside the hotkey set;
ignore the press when the debounce flag is set; otherwise set the
debounce flag, record the held key and emit one press event carrying the
canonical key name. -/
def on_key_press (st : KbState) (k : PKey) : KbState × List String :=
  if k ∈ st.hotkeys then
    if st.toggleDebounce then (st, [])
    else ({ st with toggleDebounce := true, currentHotkey := some k },
          [Key_to_str k])
  else (st, [])

/-- The on_key_release callback: when the released key equals the held
key, clear the debounce flag and the held key; otherwise do nothing. -/
def on_key_release (st : KbState) (k : PKey) : KbState :=
  if st.currentHotkey = some k then
    { st with toggleDebounce := false, currentHotkey := none }
  else st

/-- A key notification delivered by the host input layer. -/
inductive KbEvent
  | press (k : PKey)
  | release (k : PKey)

/-- Run a list of key notifications through the listener callbacks,
collecting the emitted press events in order. -/
def runKb : KbState → List KbEvent → KbState × List String
  | st, [] => (st, [])
  | st, .press k :: rest =>
    let p := on_key_press st k
    let q := runKb p.1 rest
    (q.1, p.2 ++ q.2)
  | st, .release k :: rest => runKb (on_key_release st k) rest

/-- One physical press-and-release cycle of key k with m spurious
repeated press notifications delivered between the press and the
release. -/
def cycleScript (k : PKey) (m : Nat) : List KbEvent :=
  KbEvent.press k :: (List.replicate m (KbEvent.press k) ++ [KbEvent.release k])

/-- N physical cycles of key k, the i-th one carrying the i-th entry of
ms as its number of spurious repeats. -/
def cyclesScript (k : PKey) (ms : List Nat) : List KbEvent :=
  (ms.map (cycleScript k)).flatten

/-- Decode a little-endian 16-bit value from two bytes. -/
def deU16 (a b : Nat) : Nat := a + 256 * b

/-- Decode a little-endian 32-bit value from four bytes. -/
def deU32 (a b c d : Nat) : Nat := a + 256 * b + 65536 * c + 16777216 * d

/-- Modelled from the spec: a decoder for standard linear-PCM WAV
framing, the format the emitted payload must follow. It checks the RIFF
magic, the WAVE magic, the fmt chunk magic and size, the PCM audio
format tag, the riff size consistency and the data chunk magic, and
returns the declared channel count, sample rate, sample width in bytes
and the PCM data bytes. -/
def wavDecode : List Nat → Option (Nat × Nat × Nat × List Nat)
  | r0 :: r1 :: r2 :: r3 :: l0 :: l1 :: l2 :: l3 ::
    w0 :: w1 :: w2 :: w3 :: m0 :: m1 :: m2 :: m3 ::
    g0 :: g1 :: g2 :: g3 :: a0 :: a1 :: n0 :: n1 ::
    s0 :: s1 :: s2 :: s3 :: b0 :: b1 :: b2 :: b3 ::
    k0 :: k1 :: i0 :: i1 :: d0 :: d1 :: d2 :: d3 ::
    e0 :: e1 :: e2 :: e3 :: rest =>
    if [r0, r1, r2, r3] = [82, 73, 70, 70] ∧
       [w0, w1, w2, w3] = [87, 65, 86, 69] ∧
       [m0, m1, m2, m3] = [102, 109, 116, 32] ∧
       deU32 g0 g1 g2 g3 = 16 ∧
       deU16 a0 a1 = 1 ∧
       deU32 l0 l1 l2 l3 = 36 + deU32 e0 e1 e2 e3 ∧
       [d0, d1, d2, d3] = [100, 97, 116, 97] ∧
       deU32 e0 e1 e2 e3 ≤ rest.length ∧
       deU32 b0 b1 b2 b3 = deU32 s0 s1 s2 s3 * deU16 n0 n1 * (deU16 i0 i1 / 8) ∧
       deU16 k0 k1 = deU16 n0 n1 * (deU16 i0 i1 / 8)
    then some (deU16 n0 n1, deU32 s0 s1 s2 s3, deU16 i0 i1 / 8,
               rest.take (deU32 e0 e1 e2 e3))
    else none
  | _ => none

/-- Claim C6 (confirmed): force_commit emits the current buffer as a
speech segment exactly when the speaking flag is set, the buffer is
non-empty and the emit argument is true, and in all cases the post state
has the speaking flag cleared and the buffer empty. -/
theorem force_commit_characterization (st : MicState) (e : Bool) :
    (force_commit st e).2 =
      (if st.isSpeaking && !st.audioFrames.isEmpty && e then
        [{ speech := wavEncode st.audioFrames, channels := 1,
           sampleRate := 16000 : VADEvent }]
      else []) ∧
    (force_commit st e).1.isSpeaking = false ∧
    (force_commit st e).1.audioFrames = [] := by
  unfold force_commit
  by_cases h : (st.isSpeaking && !st.audioFrames.isEmpty && e) = true
  · simp only [Bool.and_eq_true, Bool.not_eq_true'] at h
    obtain ⟨⟨hs, hne⟩, he⟩ := h
    simp [hs, he, hne, emit_event]
  · simp [h]

/-- Claim C7 (confirmed): pause changes only the toggle flag and emits
nothing, resume restores the toggle while leaving the speaking flag and
buffer untouched, and a frame recorded after resume is appended to the
same in-progress buffer. -/
theorem pause_changes_only_toggle (st : MicState) (f : Frame) :
    pauseMic st = ({ st with talkEnabled := false }, []) ∧
    resumeMic (pauseMic st).1 = ({ st with talkEnabled := true }, []) ∧
    (vad_record (resumeMic (pauseMic st).1).1 true f).1.audioFrames =
      st.audioFrames ++ [f] ∧
    (vad_record (resumeMic (pauseMic st).1).1 true f).2 = [] := by
  refine ⟨rfl, rfl, ?_, ?_⟩ <;>
    cases h : st.enableVad <;> simp [vad_record, pauseMic, resumeMic, h]

/-- Claim C8 (confirmed): stop sets the stop flag and the talk_enabled
event; from every program point of the capture loop, including the
blocking wait on the toggle, the next step never enters the blocking
read and the loop reaches exit within two steps. -/
theorem stop_wakes_loop_and_terminates (st : MicState) (p : LoopPoint) :
    (stopMic st).stopFlag = true ∧ (stopMic st).talkEnabled = true ∧
    loopNext (stopMic st) p ≠ LoopPoint.reading ∧
    loopNext (stopMic st) (loopNext (stopMic st) p) = LoopPoint.done := by
  cases p <;> simp [stopMic, loopNext]

theorem micInvStep (st : MicState) (c : Bool) (f : Frame)
    (h : st.isSpeaking = true → st.audioFrames ≠ []) :
    (vad_record st c f).1.isSpeaking = true →
    (vad_record st c f).1.audioFrames ≠ [] := by
  unfold vad_record
  cases hv : st.enableVad <;> cases hc : c <;>
    cases hs : st.isSpeaking <;> simp_all

theorem micInvCommit (st : MicState) (e : Bool) :
    (force_commit st e).1.isSpeaking = true →
    (force_commit st e).1.audioFrames ≠ [] := by
  unfold force_commit
  split <;> simp

theorem micInvRun : ∀ (steps : List MicStep) (st : MicState),
    (st.isSpeaking = true → st.audioFrames ≠ []) →
    ((runSteps st steps).isSpeaking = true →
     (runSteps st steps).audioFrames ≠ [])
  | [], _, h => h
  | .frame c f :: rest, st, h => micInvRun rest _ (micInvStep st c f h)
  | .commit e :: rest, st, _ => micInvRun rest _ (micInvCommit st e)

/-- Claim C10 (confirmed): starting from the initial state, after every
sequence of frame-processing steps and force_commit calls, whenever the
speaking flag is set the frame buffer is non-empty. -/
theorem speaking_implies_nonempty_buffer (v : Bool) (steps : List MicStep)
    (h : (runSteps (initMic v) steps).isSpeaking = true) :
    (runSteps (initMic v) steps).audioFrames ≠ [] :=
  micInvRun steps (initMic v) (by simp [initMic]) h

/-- Witness for claim C10 at a concrete run that ends in the speaking
state. -/
theorem speaking_implies_nonempty_buffer_witness :
    (runSteps (initMic true) [MicStep.frame true [1]]).isSpeaking = true ∧
    (runSteps (initMic true) [MicStep.frame true [1]]).audioFrames ≠ [] :=
  ⟨by decide, speaking_implies_nonempty_buffer true [MicStep.frame true [1]]
    (by decide)⟩

/-- The scripted capture sequence of three silence frames, five speech
frames and three silence frames, paired with the classifier verdicts. -/
def c1Script (s1 s2 s3 p1 p2 p3 p4 p5 t1 t2 t3 : Frame) :
    List (Bool × Frame) :=
  [(false, s1), (false, s2), (false, s3),
   (true, p1), (true, p2), (true, p3), (true, p4), (true, p5),
   (false, t1), (false, t2), (false, t3)]

/-- Counterexample for claim C1: on the scripted sequence with VAD
enabled, processing the first eight frames emits no event at all, so
the single segment of the full run is not emitted during processing of
the eighth frame; the eighth frame is the last speech frame, and the
first silence frame after speech is the ninth. -/
theorem vad_scripted_no_event_during_eighth_frame :
    (runFrames (initMic true)
      (List.take 8 (c1Script [0] [0] [0] [1] [1] [1] [1] [1] [0] [0] [0]))).2
      = [] ∧
    (runFrames (initMic true)
      (c1Script [0] [0] [0] [1] [1] [1] [1] [1] [0] [0] [0])).2.length = 1 := by
  decide

theorem wavHeaderLen (n : Nat) : (wavHeader n).length = 44 := by
  simp [wavHeader, u32le, u16le]

/-- Claim C1 (amended): with VAD enabled, the scripted sequence of three
silence, five speech and three silence frames emits exactly one segment;
no event is emitted during the first eight frames and the segment is
emitted during processing of the ninth frame, the first silence frame
after speech; its payload encodes exactly the bytes of the five speech
frames, the silence frames being discarded. -/
theorem vad_scripted_single_segment_ninth_frame
    (s1 s2 s3 p1 p2 p3 p4 p5 t1 t2 t3 : Frame) :
    (runFrames (initMic true) (c1Script s1 s2 s3 p1 p2 p3 p4 p5 t1 t2 t3)).2 =
      [{ speech := wavEncode [p1, p2, p3, p4, p5], channels := 1,
         sampleRate := 16000 }] ∧
    (runFrames (initMic true)
      (List.take 8 (c1Script s1 s2 s3 p1 p2 p3 p4 p5 t1 t2 t3))).2 = [] ∧
    (runFrames (initMic true)
      (List.take 9 (c1Script s1 s2 s3 p1 p2 p3 p4 p5 t1 t2 t3))).2 =
      [{ speech := wavEncode [p1, p2, p3, p4, p5], channels := 1,
         sampleRate := 16000 }] ∧
    List.drop 44 (wavEncode [p1, p2, p3, p4, p5]) =
      p1 ++ p2 ++ p3 ++ p4 ++ p5 := by
  refine ⟨?_, ?_, ?_, ?_⟩
  · simp [c1Script, runFrames, vad_record, initMic, emit_event]
  · simp [c1Script, runFrames, vad_record, initMic, emit_event]
  · simp [c1Script, runFrames, vad_record, initMic, emit_event]
  · have h44 := wavHeaderLen ([p1, p2, p3, p4, p5] : List Frame).flatten.length
    calc List.drop 44 (wavEncode [p1, p2, p3, p4, p5])
        = List.drop (wavHeader ([p1, p2, p3, p4, p5] :
            List Frame).flatten.length).length
            (wavHeader ([p1, p2, p3, p4, p5] : List Frame).flatten.length ++
             ([p1, p2, p3, p4, p5] : List Frame).flatten) := by
          rw [h44, wavEncode]
      _ = ([p1, p2, p3, p4, p5] : List Frame).flatten := List.drop_left _ _
      _ = p1 ++ p2 ++ p3 ++ p4 ++ p5 := by simp

theorem runFrames_vad_off : ∀ (script : List (Bool × Frame)) (st : MicState),
    st.enableVad = false →
    (runFrames st script).2 = [] ∧
    (runFrames st script).1.audioFrames =
      st.audioFrames ++ script.map Prod.snd ∧
    (runFrames st script).1.isSpeaking = (st.isSpeaking || !script.isEmpty) ∧
    (runFrames st script).1.enableVad = false := by
  intro script
  induction script with
  | nil => intro st h; simp [runFrames, h]
  | cons p rest ih =>
    intro st h
    obtain ⟨c, f⟩ := p
    obtain ⟨h1, h2, h3, h4⟩ :=
      ih { st with isSpeaking := true, audioFrames := st.audioFrames ++ [f] }
        (by simpa using h)
    simp only [h] at h1 h2 h3 h4
    simp only [runFrames, vad_record, h, Bool.false_eq_true, if_false]
    refine ⟨by simpa using h1, ?_, ?_, by simpa using h4⟩
    · simpa using h2
    · simp only [List.isEmpty_cons, Bool.not_false, Bool.or_true]
      simpa using h3

/-- Counterexample for claim C5: with VAD disabled and an empty sequence
of captured frames, a force_commit with emit true emits no segment at
all, where the claim as stated promises exactly one segment containing
all captured frames for every sequence. -/
theorem force_commit_empty_capture_emits_nothing :
    (force_commit (runFrames (initMic false) []).1 true).2 = [] := by
  decide

/-- Claim C5 (amended): with VAD disabled, for every non-empty sequence
of captured frames, no event is emitted during frame processing, every
frame is appended to the buffer regardless of its classification, and a
subsequent force_commit with emit true emits exactly one segment whose
payload encodes all captured frames and clears the buffer. -/
theorem vad_disabled_accumulate_then_commit
    (script : List (Bool × Frame)) (h : script ≠ []) :
    (runFrames (initMic false) script).2 = [] ∧
    (runFrames (initMic false) script).1.audioFrames =
      script.map Prod.snd ∧
    (force_commit (runFrames (initMic false) script).1 true).2 =
      [{ speech := wavEncode (script.map Prod.snd), channels := 1,
         sampleRate := 16000 }] ∧
    (force_commit (runFrames (initMic false) script).1 true).1.audioFrames
      = [] := by
  obtain ⟨hev, hfr, hsp, _⟩ := runFrames_vad_off script (initMic false) rfl
  have hie : script.isEmpty = false := by
    cases script
    · exact absurd rfl h
    · rfl
  have hfr' : (runFrames (initMic false) script).1.audioFrames =
      script.map Prod.snd := by simpa [initMic] using hfr
  have hs : (runFrames (initMic false) script).1.isSpeaking = true := by
    rw [hsp]; simp [initMic, hie]
  have hmap : (script.map Prod.snd).isEmpty = false := by
    cases script
    · exact absurd rfl h
    · rfl
  refine ⟨hev, hfr', ?_, ?_⟩
  · simp [force_commit, hs, hfr', hmap, emit_event]
  · unfold force_commit
    split <;> rfl

/-- Witness for claim C5 at a concrete two-frame capture script. -/
theorem vad_disabled_accumulate_then_commit_witness :
    ([(true, [1]), (false, [2])] : List (Bool × Frame)) ≠ [] ∧
    ((runFrames (initMic false) [(true, [1]), (false, [2])]).2 = [] ∧
     (runFrames (initMic false) [(true, [1]), (false, [2])]).1.audioFrames =
       ([(true, [1]), (false, [2])] : List (Bool × Frame)).map Prod.snd ∧
     (force_commit
        (runFrames (initMic false) [(true, [1]), (false, [2])]).1 true).2 =
       [{ speech := wavEncode
            (([(true, [1]), (false, [2])] : List (Bool × Frame)).map Prod.snd),
          channels := 1, sampleRate := 16000 }] ∧
     (force_commit
        (runFrames (initMic false) [(true, [1]), (false, [2])]).1
        true).1.audioFrames = []) :=
  ⟨by decide,
   vad_disabled_accumulate_then_commit [(true, [1]), (false, [2])] (by decide)⟩

theorem vad_record_stopFlag (st : MicState) (c : Bool) (f : Frame) :
    (vad_record st c f).1.stopFlag = st.stopFlag := by
  cases hv : st.enableVad <;> cases hc : c <;> cases hs : st.isSpeaking <;>
    simp [vad_record, hv, hc, hs]

/-- Counterexample for claim C3: an error outcome at the first loop
iteration terminates the loop, so the well-formed frame scripted right
after the error is never processed, while the same frame is processed
when no error precedes it. -/
theorem capture_loop_drops_frame_after_error :
    capture_loop (initMic true) [ReadOutcome.err, ReadOutcome.ok true [1]] =
      { state := initMic true, events := [], deviceClosed := true } ∧
    (capture_loop (initMic true)
      [ReadOutcome.ok true [1]]).state.audioFrames = [[1]] := by
  decide

/-- Claim C3 (amended): an error raised by the frame read or by the VAD
classification escapes the while loop into the top-level handler, where
it is logged and terminates the loop: exactly the frames of the longest
error-free initial segment of the script are processed, and on every
exit path the finally block stops and closes the device. -/
theorem capture_loop_stops_at_first_error_and_closes :
    ∀ (script : List ReadOutcome) (st : MicState), st.stopFlag = false →
    (capture_loop st script).deviceClosed = true ∧
    (capture_loop st script).state = (runFrames st (errFreeFrames script)).1 ∧
    (capture_loop st script).events =
      (runFrames st (errFreeFrames script)).2 := by
  intro script
  induction script with
  | nil => intro st h; simp [capture_loop, errFreeFrames, runFrames]
  | cons o rest ih =>
    intro st h
    cases o with
    | err => simp [capture_loop, errFreeFrames, runFrames, h]
    | ok c f =>
      obtain ⟨h1, h2, h3⟩ :=
        ih (vad_record st c f).1 (by rw [vad_record_stopFlag]; exact h)
      simp [capture_loop, errFreeFrames, runFrames, h, h1, h2, h3]

/-- Witness for claim C3 at a concrete script holding an error between
two well-formed reads. -/
theorem capture_loop_stops_at_first_error_and_closes_witness :
    (initMic true).stopFlag = false ∧
    ((capture_loop (initMic true)
        [ReadOutcome.ok true [1], ReadOutcome.err,
         ReadOutcome.ok true [2]]).deviceClosed = true ∧
     (capture_loop (initMic true)
        [ReadOutcome.ok true [1], ReadOutcome.err,
         ReadOutcome.ok true [2]]).state =
       (runFrames (initMic true)
         (errFreeFrames
           [ReadOutcome.ok true [1], ReadOutcome.err,
            ReadOutcome.ok true [2]])).1 ∧
     (capture_loop (initMic true)
        [ReadOutcome.ok true [1], ReadOutcome.err,
         ReadOutcome.ok true [2]]).events =
       (runFrames (initMic true)
         (errFreeFrames
           [ReadOutcome.ok true [1], ReadOutcome.err,
            ReadOutcome.ok true [2]])).2) :=
  ⟨by decide,
   capture_loop_stops_at_first_error_and_closes
     [ReadOutcome.ok true [1], ReadOutcome.err, ReadOutcome.ok true [2]]
     (initMic true) (by decide)⟩

theorem runKb_append : ∀ (a : List KbEvent) (st : KbState) (b : List KbEvent),
    runKb st (a ++ b) =
      ((runKb (runKb st a).1 b).1,
       (runKb st a).2 ++ (runKb (runKb st a).1 b).2) := by
  intro a
  induction a with
  | nil => intro st b; simp [runKb]
  | cons e rest ih =>
    intro st b
    cases e with
    | press k => simp [runKb, ih]
    | release k => simp [runKb, ih]

theorem on_key_press_debounced (st : KbState) (k : PKey)
    (h : st.toggleDebounce = true) : on_key_press st k = (st, []) := by
  simp [on_key_press, h]

theorem runKb_repeat_press (st : KbState) (k : PKey)
    (h : st.toggleDebounce = true) :
    ∀ m, runKb st (List.replicate m (KbEvent.press k)) = (st, []) := by
  intro m
  induction m with
  | zero => simp [runKb]
  | succ n ih =>
    simp [List.replicate_succ, runKb, on_key_press_debounced st k h, ih]

theorem runKb_cycle (ks : List PKey) (k : PKey) (hk : k ∈ ks) (m : Nat) :
    runKb { hotkeys := ks, currentHotkey := none, toggleDebounce := false }
      (cycleScript k m) =
    ({ hotkeys := ks, currentHotkey := none, toggleDebounce := false },
     [Key_to_str k]) := by
  have h1 : on_key_press
      { hotkeys := ks, currentHotkey := none, toggleDebounce := false } k =
      ({ hotkeys := ks, currentHotkey := some k, toggleDebounce := true },
       [Key_to_str k]) := by
    simp [on_key_press, hk]
  have h2 := runKb_repeat_press
      { hotkeys := ks, currentHotkey := some k, toggleDebounce := true }
      k rfl m
  have h3 : runKb
      { hotkeys := ks, currentHotkey := some k, toggleDebounce := true }
      [KbEvent.release k] =
      ({ hotkeys := ks, currentHotkey := none, toggleDebounce := false },
       []) := by
    simp [runKb, on_key_release]
  unfold cycleScript
  simp only [runKb, h1, runKb_append, h2, h3]
  simp [on_key_release]

/-- Claim C4 (confirmed): N physical press-and-release cycles of a
configured hotkey, each with arbitrarily many spurious repeated press
notifications between press and release, emit exactly N toggle
notifications, one per cycle, each carrying the canonical key name;
presses of keys outside the hotkey set and releases of keys that are not
currently held emit nothing and change nothing. -/
theorem hotkey_debounce_one_toggle_per_cycle
    (ks : List PKey) (k k2 : PKey) (st : KbState) (hk : k ∈ ks)
    (ms : List Nat) :
    (runKb { hotkeys := ks, currentHotkey := none, toggleDebounce := false }
      (cyclesScript k ms)).2 =
      List.replicate ms.length (Key_to_str k) ∧
    (k2 ∉ st.hotkeys → on_key_press st k2 = (st, [])) ∧
    (st.currentHotkey ≠ some k2 → on_key_release st k2 = st) := by
  refine ⟨?_, ?_, ?_⟩
  · induction ms with
    | nil => simp [cyclesScript, runKb]
    | cons m rest ih =>
      have hcy := runKb_cycle ks k hk m
      simp only [cyclesScript, List.map_cons, List.flatten_cons] at ih ⊢
      rw [runKb_append, hcy]
      simp [List.replicate_succ, ih]
  · intro h
    simp [on_key_press, h]
  · intro h
    simp [on_key_release, h]

/-- Witness for claim C4: two cycles of the f8 hotkey, the second with
two spurious repeated presses, against a listener configured with f8
only. -/
theorem hotkey_debounce_one_toggle_per_cycle_witness :
    (PKey.named "f8") ∈ [PKey.named "f8"] ∧
    ((runKb { hotkeys := [PKey.named "f8"], currentHotkey := none,
              toggleDebounce := false }
        (cyclesScript (PKey.named "f8") [0, 2])).2 =
      List.replicate ([0, 2] : List Nat).length
        (Key_to_str (PKey.named "f8")) ∧
     (PKey.charKey 'x' ∉
        ({ hotkeys := [PKey.named "f8"], currentHotkey := none,
           toggleDebounce := false } : KbState).hotkeys →
       on_key_press
         { hotkeys := [PKey.named "f8"], currentHotkey := none,
           toggleDebounce := false } (PKey.charKey 'x') =
         ({ hotkeys := [PKey.named "f8"], currentHotkey := none,
            toggleDebounce := false }, [])) ∧
     (({ hotkeys := [PKey.named "f8"], currentHotkey := none,
         toggleDebounce := false } : KbState).currentHotkey ≠
        some (PKey.charKey 'x') →
       on_key_release
         { hotkeys := [PKey.named "f8"], currentHotkey := none,
           toggleDebounce := false } (PKey.charKey 'x') =
         { hotkeys := [PKey.named "f8"], currentHotkey := none,
           toggleDebounce := false })) :=
  ⟨by decide,
   hotkey_debounce_one_toggle_per_cycle [PKey.named "f8"] (PKey.named "f8")
     (PKey.charKey 'x')
     { hotkeys := [PKey.named "f8"], currentHotkey := none,
       toggleDebounce := false }
     (by decide) [0, 2]⟩

/-- Claim C2 (code bug): the hotkey listener constructor accepts a list
with two identical hotkey strings, which resolve to the same physical
key, because the duplicate check compares the raw string against the set
of already resolved Key objects and therefore never fires, leaving the
assert that documents the duplicate rejection unreachable; it likewise
accepts the empty hotkey list without error. Non-string entries are
rejected as the claim states. -/
theorem keyboard_init_accepts_duplicates_and_empty :
    keyboardInit [PyVal.str "f8", PyVal.str "f8"] =
      Except.ok [PKey.named "f8"] ∧
    keyboardInit [] = Except.ok ([] : List PKey) ∧
    keyboardInit [PyVal.nonStr] =
      Except.error "hotkeys must be string type" :=
  ⟨rfl, rfl, rfl⟩

theorem deU32_u32le (n : Nat) (h : n < 4294967296) :
    n % 256 + 256 * (n / 256 % 256) + 65536 * (n / 65536 % 256) +
      16777216 * (n / 16777216 % 256) = n := by
  omega

theorem wavDecode_header (data : List Nat) (hle : data.length ≤ 4294967259) :
    wavDecode (wavHeader data.length ++ data) = some (1, 16000, 2, data) := by
  have hn : data.length < 4294967296 := by omega
  have h36 : 36 + data.length < 4294967296 := by omega
  have e32 := deU32_u32le data.length hn
  have e36 := deU32_u32le (36 + data.length) h36
  simp only [wavHeader, u32le, u16le, List.cons_append, List.nil_append]
  rw [wavDecode, if_pos]
  · norm_num [deU16, deU32, e32, List.take_length]
  · refine ⟨rfl, rfl, rfl, by norm_num [deU32], by norm_num [deU16], ?_, rfl,
      ?_, by norm_num [deU32, deU16], by norm_num [deU16]⟩
    · simp only [deU32]; rw [e36, e32]
    · simp only [deU32]; rw [e32]

/-- Claim C9 (confirmed): for every non-empty list of PCM frames whose
total byte length fits the 32-bit WAV size fields, exactly one event is
emitted whose payload is the WAV encoding of the buffer, the encoding
follows standard linear-PCM WAV framing, and decoding the payload
returns byte-identical PCM data together with channel count 1, sample
rate 16000 and sample width 2 bytes. -/
theorem wav_encode_decode_roundtrip (frames : List Frame)
    (h1 : frames ≠ []) (h2 : frames.flatten.length ≤ 4294967259) :
    emit_event frames =
      [{ speech := wavEncode frames, channels := 1, sampleRate := 16000 }] ∧
    wavDecode (wavEncode frames) = some (1, 16000, 2, frames.flatten) := by
  constructor
  · have hie : frames.isEmpty = false := by
      cases frames
      · exact absurd rfl h1
      · rfl
    simp [emit_event, hie]
  · rw [wavEncode]
    exact wavDecode_header frames.flatten h2

/-- Witness for claim C9 at a concrete two-frame buffer. -/
theorem wav_encode_decode_roundtrip_witness :
    ([[1, 2], [3, 4]] : List Frame) ≠ [] ∧
    ([[1, 2], [3, 4]] : List Frame).flatten.length ≤ 4294967259 ∧
    (emit_event [[1, 2], [3, 4]] =
      [{ speech := wavEncode [[1, 2], [3, 4]], channels := 1,
         sampleRate := 16000 }] ∧
     wavDecode (wavEncode [[1, 2], [3, 4]]) =
       some (1, 16000, 2, ([[1, 2], [3, 4]] : List Frame).flatten)) :=
  ⟨by decide, by decide,
   wav_encode_decode_roundtrip [[1, 2], [3, 4]] (by decide) (by decide)⟩
